import Mathlib

/-!
Shallow embedding of the email-verifier engine (src/email_verifier.py).

The network is modelled as explicit environment values passed to each
function: a DnsEnv records how the resolver answers the MX and the
fallback A query for the domain at hand, and an SmtpNet records, per
(host, email, port), the outcome of every protocol step of one SMTP
probe attempt.  Fallible Python code is translated to Except; every
definition is executable.
-/

deriving instance DecidableEq for Except

namespace EmailVerifier

/-! ### Syntax validator

Python: re.match applied to the pattern
  ^[a-zA-Z0-9._%+-]+@[a-zA-Z0-9.-]+\.[a-zA-Z]{2,}$
The language of this anchored pattern: a nonempty run of local-part
characters, an at-sign, a nonempty run of domain characters, a dot, and
two or more ASCII letters running to the end.  The dollar anchor also
matches just before one trailing newline, which stripTrailingNewline
accounts for.  The matchers below state the language as an executable
existential over the split positions the backtracking engine may choose. -/

/-- Python str.split with a one-character separator, on the character
list: split at every occurrence, keeping empty pieces. -/
def splitOnChar (c : Char) : List Char → List (List Char)
  | [] => [[]]
  | x :: xs =>
    let r := splitOnChar c xs
    if x == c then [] :: r
    else
      match r with
      | [] => [[x]]
      | y :: ys => (x :: y) :: ys

/-- Python email.split(at-sign) as a list of strings. -/
def splitAtSign (email : String) : List String :=
  (splitOnChar '@' email.toList).map String.mk

def isLocalChar (c : Char) : Bool :=
  c.isAlpha || c.isDigit || c == '.' || c == '_' || c == '%' || c == '+' || c == '-'

def isDomainChar (c : Char) : Bool :=
  c.isAlpha || c.isDigit || c == '.' || c == '-'

def matchDomainTail (t : List Char) : Bool :=
  (List.range t.length).any fun i =>
    t.getD i ' ' == '.' && decide (1 ≤ i) && (t.take i).all isDomainChar &&
      (t.drop (i + 1)).all Char.isAlpha && decide (2 ≤ t.length - (i + 1))

def matchesEmailPattern (cs : List Char) : Bool :=
  (List.range cs.length).any fun j =>
    cs.getD j ' ' == '@' && decide (1 ≤ j) && (cs.take j).all isLocalChar &&
      matchDomainTail (cs.drop (j + 1))

def stripTrailingNewline (cs : List Char) : List Char :=
  if cs.getLast? == some '\n' then cs.dropLast else cs

def validate_email_syntax (email : String) : Bool :=
  if email == "" then false
  else matchesEmailPattern (stripTrailingNewline email.toList)

/-- Modelled from the spec's words for comparison with the code: the
grammar claimed in section 4.1, a local part over the stated class, then
an at-sign, then two or more dot-separated nonempty labels of which the
final one is two or more letters. -/
def claimGrammar (email : String) : Bool :=
  match splitOnChar '@' email.toList with
  | [loc, domain] =>
    decide (loc ≠ []) && loc.all isLocalChar &&
      (let labels := splitOnChar '.' domain
       decide (2 ≤ labels.length) && labels.all (fun lab => decide (lab ≠ [])) &&
         (match labels.getLast? with
          | some lastLab => decide (2 ≤ lastLab.length) && lastLab.all Char.isAlpha
          | none => false))
  | _ => false

/-! ### Domain resolver

Python check_dns_and_mx: resolve MX; on NoAnswer, NXDOMAIN or
NoNameservers fall back to an A query whose own handler catches only
NXDOMAIN and NoNameservers, so any other failure of the A query
propagates (an exception raised inside an except handler is not caught
by the remaining clauses of the same try).  MX results are sorted by
preference with Python's stable list.sort, modelled by insertionSort. -/

inductive DnsErr where
  | noAnswer
  | nxdomain
  | noNameservers
  | timeout
  | other
  deriving DecidableEq, Repr

structure DnsEnv where
  mx : Except DnsErr (List (String × Nat))
  a : Except DnsErr Unit

def prefLe (x y : String × Nat) : Prop := x.2 ≤ y.2

instance : DecidableRel prefLe := fun x y => inferInstanceAs (Decidable (x.2 ≤ y.2))

instance : IsTotal (String × Nat) prefLe := ⟨fun x y => Nat.le_total x.2 y.2⟩

instance : IsTrans (String × Nat) prefLe := ⟨fun _ _ _ h h2 => Nat.le_trans h h2⟩

def sortByPreference (records : List (String × Nat)) : List (String × Nat) :=
  List.insertionSort prefLe records

def check_dns_and_mx (env : DnsEnv) (domain : String) :
    Except DnsErr (Bool × List String) :=
  match env.mx with
  | .ok records => .ok (true, (sortByPreference records).map Prod.fst)
  | .error .noAnswer | .error .nxdomain | .error .noNameservers =>
    match env.a with
    | .ok _ => .ok (false, [domain])
    | .error .nxdomain | .error .noNameservers => .ok (false, [])
    | .error e => .error e
  | .error .timeout => .ok (false, [])
  | .error .other => .ok (false, [])

/-! ### SMTP prober

Python smtp_handshake tries ports 25, 587, 465 in order.  Per port the
steps are: connect, EHLO (falling back to HELO), MAIL FROM with an empty
sender, RCPT TO, and QUIT.  An exception escaping a step (or escaping an
unguarded QUIT inside a step handler) lands in the port-level except
clauses, ordered: timeout, gaierror (which breaks the whole loop),
connection errors with a special port-25 annotation, server
disconnected, and a catch-all.  Exn names which port-level clause an
exception is dispatched to; the carried string is the Python str of the
exception. -/

inductive Exn where
  | timeout (msg : String)
  | gaierror (msg : String)
  | connErr (msg : String)
  | serverDisconnected (msg : String)
  | other (msg : String)
  deriving DecidableEq, Repr

def Exn.str : Exn → String
  | .timeout m => m
  | .gaierror m => m
  | .connErr m => m
  | .serverDisconnected m => m
  | .other m => m

/-- Substring test used for the port-25 connection-refused annotation
(Python: "Connection refused" in str(e)). -/
def strContains (hay needle : String) : Bool :=
  hay.toList.tails.any fun suf => needle.toList.isPrefixOf suf

/-- What the RCPT TO step does: return a reply code with server text,
raise SMTPRecipientsRefused, or raise some other exception. -/
inductive RcptOutcome where
  | code (c : Nat) (msg : String)
  | refused (msg : String)
  | exn (msg : String)
  deriving DecidableEq, Repr

/-- Behaviour of one port attempt of the probed server.  A none in an
Option Exn field means that step (or that QUIT) succeeds. -/
structure PortEnv where
  connect : Option Exn := none
  ehloOk : Bool := true
  heloOk : Bool := true
  greetQuit : Option Exn := none
  mailExn : Option String := none
  mailQuit : Option Exn := none
  rcpt : RcptOutcome := .code 250 "OK"
  quit1 : Option Exn := none
  quit2 : Option Exn := none
  deriving DecidableEq, Repr

instance : Inhabited PortEnv := ⟨{}⟩

/-- Result of one port attempt: return accepted, continue to the next
port (optionally overwriting last_error), or break out of the port loop
(the gaierror case). -/
inductive AttemptResult where
  | accepted
  | cont (upd : Option String)
  | abort (upd : Option String)
  deriving DecidableEq, Repr

/-- The port-level except clauses: the last_error text each assigns and
whether the clause breaks the loop. -/
def portHandler (port : Nat) (e : Exn) : Option String × Bool :=
  match e with
  | .timeout _ => (some ("Connection timeout on port " ++ toString port), false)
  | .gaierror _ => (some "Could not resolve host", true)
  | .connErr m =>
    if port == 25 && (strContains m "Connection refused" || strContains m "errno 111") then
      (some "Port 25 blocked (AWS EC2 blocks outbound port 25 by default)", false)
    else
      (some ("Connection error on port " ++ toString port ++ ": " ++ m), false)
  | .serverDisconnected _ => (some ("Server disconnected on port " ++ toString port), false)
  | .other m => (some ("SMTP error on port " ++ toString port ++ ": " ++ m), false)

def dispatchExn (port : Nat) (e : Exn) : AttemptResult :=
  if (portHandler port e).2 then .abort (portHandler port e).1
  else .cont (portHandler port e).1

/-- One iteration of the port loop.  The accepting RCPT path returns
accepted only when its unguarded QUIT succeeds; a failing QUIT is caught
by the broad RCPT handler, whose own QUIT either succeeds (last_error
becomes the RCPT TO error text) or raises to the port-level clauses. -/
def runPort (env : PortEnv) (port : Nat) : AttemptResult :=
  match env.connect with
  | some e => dispatchExn port e
  | none =>
    if env.ehloOk || env.heloOk then
      match env.mailExn with
      | some m =>
        match env.mailQuit with
        | none => .cont (some ("MAIL FROM failed: " ++ m))
        | some e => dispatchExn port e
      | none =>
        match env.rcpt with
        | .code c m =>
          if c == 250 || c == 251 || c == 252 then
            match env.quit1 with
            | none => .accepted
            | some x =>
              match env.quit2 with
              | none => .cont (some ("RCPT TO error: " ++ x.str))
              | some y => dispatchExn port y
          else
            match env.quit1 with
            | none => .cont (some ("Rejected: " ++ toString c ++ " " ++ m))
            | some x =>
              match env.quit2 with
              | none => .cont (some ("RCPT TO error: " ++ x.str))
              | some y => dispatchExn port y
        | .refused m =>
          match env.quit1 with
          | none => .cont (some ("Recipient refused: " ++ m))
          | some x => dispatchExn port x
        | .exn m =>
          match env.quit1 with
          | none => .cont (some ("RCPT TO error: " ++ m))
          | some x => dispatchExn port x
    else
      match env.greetQuit with
      | none => .cont none
      | some e => dispatchExn port e

/-- Network behaviour seen by smtp_handshake: per host, email and port,
one PortEnv. -/
abbrev SmtpNet := String → String → Nat → PortEnv

def SMTP_TIMEOUT : Nat := 10

def portsToTry : List Nat := [25, 587, 465]

def updateErr (old upd : Option String) : Option String :=
  match upd with
  | some s => some s
  | none => old

def handshakeLoop (env : Nat → PortEnv) : List Nat → Option String → Bool × String
  | [], lastError => (false, lastError.getD "All connection attempts failed")
  | p :: ps, lastError =>
    match runPort (env p) p with
    | .accepted => (true, "Accepted")
    | .cont upd => handshakeLoop env ps (updateErr lastError upd)
    | .abort upd => (false, (updateErr lastError upd).getD "All connection attempts failed")

def smtp_handshake (net : SmtpNet) (mx_host email : String) (timeout : Nat := SMTP_TIMEOUT) :
    Bool × String :=
  handshakeLoop (net mx_host email) portsToTry none

/-! ### Catch-all detector -/

def catchAllChars : List Char := "abcdefghijklmnopqrstuvwxyz0123456789".toList

/-- Python generate_random_email: twelve random picks from lowercase
letters and digits, then at-sign and the domain.  The random source is
the pick function. -/
def generate_random_email (pick : Nat → Fin 36) (domain : String) : String :=
  String.mk ((List.range 12).map fun i => catchAllChars.getD (pick i).val 'a') ++ "@" ++ domain

def check_catch_all (net : SmtpNet) (pick : Nat → Fin 36) (domain : String)
    (mx_hosts : List String) : Bool :=
  match mx_hosts with
  | [] => false
  | h :: _ => (smtp_handshake net h (generate_random_email pick domain) SMTP_TIMEOUT).1

/-! ### Verification orchestrator -/

structure VerificationResult where
  email : String
  syntaxValid : Bool
  mx : Bool
  smtp_accepts : Bool
  catch_all : Bool
  status : String
  deriving DecidableEq, Repr

def initResult (email : String) : VerificationResult :=
  { email := email, syntaxValid := false, mx := false, smtp_accepts := false,
    catch_all := false, status := "invalid" }

/-- The host loop of verify_email: overwrite the accumulator with each
handshake result and stop at the first accepted one. -/
def probeLoop (net : SmtpNet) (email : String) : List String → Bool × String → Bool × String
  | [], acc => acc
  | h :: t, _ =>
    let r := smtp_handshake net h email SMTP_TIMEOUT
    if r.1 then r else probeLoop net email t r

def verify_email (denv : DnsEnv) (net : SmtpNet) (pick : Nat → Fin 36) (email : String) :
    Except DnsErr VerificationResult :=
  let result := initResult email
  if validate_email_syntax email then
    let result := { result with syntaxValid := true }
    match (splitAtSign email).get? 1 with
    | none => .ok { result with status := "invalid" }
    | some domain =>
      match check_dns_and_mx denv domain with
      | .error e => .error e
      | .ok (_has_mx, mx_hosts) =>
        if mx_hosts.isEmpty then .ok { result with status := "invalid" }
        else
          let result := { result with mx := true }
          let probe := probeLoop net email (mx_hosts.take 3) (false, "No MX hosts available")
          let result := { result with smtp_accepts := probe.1 }
          if probe.1 then
            let ca := check_catch_all net pick domain mx_hosts
            let result := { result with catch_all := ca }
            .ok { result with status := if ca then "risky" else "valid" }
          else .ok { result with status := "invalid" }
  else .ok result

/-! ### Helper lemmas -/

/-- The spec's status table as a pure function of the four booleans. -/
def statusOf (s m a c : Bool) : String :=
  if s && m && a then (if c then "risky" else "valid") else "invalid"

/-- Every result verify_email can return normally has one of four
shapes, following the pipeline's short-circuit points. -/
theorem verify_email_ok_shape (denv : DnsEnv) (net : SmtpNet) (pick : Nat → Fin 36)
    (email : String) (r : VerificationResult)
    (h : verify_email denv net pick email = .ok r) :
    r = ⟨email, false, false, false, false, "invalid"⟩ ∨
    r = ⟨email, true, false, false, false, "invalid"⟩ ∨
    r = ⟨email, true, true, false, false, "invalid"⟩ ∨
    ∃ c, r = ⟨email, true, true, true, c, if c then "risky" else "valid"⟩ := by
  simp only [verify_email, initResult] at h
  split at h
  · split at h
    · simp only [Except.ok.injEq] at h
      exact Or.inr (Or.inl h.symm)
    · split at h
      · simp at h
      · split at h
        · simp only [Except.ok.injEq] at h
          exact Or.inr (Or.inl h.symm)
        · split at h
          · rename_i hp
            rw [hp] at h
            simp only [Except.ok.injEq] at h
            exact Or.inr (Or.inr (Or.inr ⟨_, h.symm⟩))
          · rename_i hp
            rw [Bool.not_eq_true] at hp
            rw [hp] at h
            simp only [Except.ok.injEq] at h
            exact Or.inr (Or.inr (Or.inl h.symm))
  · simp only [Except.ok.injEq] at h
    exact Or.inl h.symm

/-- If the accumulator is not accepted and every host in the list fails,
the host loop ends not accepted. -/
theorem probeLoop_all_fail (net : SmtpNet) (email : String) (hs : List String)
    (acc : Bool × String) (hacc : acc.1 = false)
    (hall : ∀ h ∈ hs, (smtp_handshake net h email SMTP_TIMEOUT).1 = false) :
    (probeLoop net email hs acc).1 = false := by
  induction hs generalizing acc with
  | nil => simpa [probeLoop] using hacc
  | cons x xs ih =>
    simp only [probeLoop]
    have hx := hall x (by simp)
    rw [if_neg (by simp [hx])]
    exact ih _ hx fun h hm => hall h (List.mem_cons_of_mem x hm)

/-- The host loop returns the handshake result of the first accepting
host, whatever hosts follow it. -/
theorem probeLoop_first_accept (net : SmtpNet) (email : String) (pre : List String)
    (hAcc : String) (post : List String) (acc : Bool × String)
    (hpre : ∀ h ∈ pre, (smtp_handshake net h email SMTP_TIMEOUT).1 = false)
    (hacc : (smtp_handshake net hAcc email SMTP_TIMEOUT).1 = true) :
    probeLoop net email (pre ++ hAcc :: post) acc =
      smtp_handshake net hAcc email SMTP_TIMEOUT := by
  induction pre generalizing acc with
  | nil =>
    simp only [List.nil_append, probeLoop]
    rw [if_pos hacc]
  | cons x xs ih =>
    simp only [List.cons_append, probeLoop]
    have hx := hpre x (by simp)
    rw [if_neg (by simp [hx])]
    exact ih _ fun h hm => hpre h (List.mem_cons_of_mem x hm)

/-- Reduction of verify_email on the path where syntax passes, the
domain is extracted and the resolver returns a nonempty host list. -/
theorem verify_email_probe_path (denv : DnsEnv) (net : SmtpNet) (pick : Nat → Fin 36)
    (email dom : String) (b : Bool) (hosts : List String)
    (hv : validate_email_syntax email = true)
    (hd : (splitAtSign email).get? 1 = some dom)
    (hm : check_dns_and_mx denv dom = .ok (b, hosts))
    (hne : hosts ≠ []) :
    verify_email denv net pick email =
      (if (probeLoop net email (hosts.take 3) (false, "No MX hosts available")).1 then
        .ok ⟨email, true, true, true, check_catch_all net pick dom hosts,
             if check_catch_all net pick dom hosts then "risky" else "valid"⟩
      else .ok ⟨email, true, true, false, false, "invalid"⟩) := by
  simp only [verify_email, initResult, hv, if_true, hd, hm]
  rw [if_neg (by simp [List.isEmpty_eq_false.mpr hne])]
  by_cases hp : (probeLoop net email (hosts.take 3) (false, "No MX hosts available")).1
  · rw [if_pos hp, if_pos hp, hp]
  · rw [Bool.not_eq_true] at hp
    rw [hp]
    simp only [Bool.false_eq_true, if_false, hp]

/-- Element found at the length of the left part of an append. -/
theorem getD_append_cons {α : Type} (l : List α) (a : α) (r : List α) (d : α) :
    (l ++ a :: r).getD l.length d = a := by
  induction l with
  | nil => rfl
  | cons x xs ih => simpa using ih

/-- The structural language of the domain part of the pattern: a
nonempty run of domain characters, a dot, then two or more letters. -/
theorem matchDomainTail_iff (t : List Char) :
    matchDomainTail t = true ↔
      ∃ m f : List Char, t = m ++ ('.' :: f) ∧ m ≠ [] ∧ m.all isDomainChar = true ∧
        2 ≤ f.length ∧ f.all Char.isAlpha = true := by
  unfold matchDomainTail
  rw [List.any_eq_true]
  constructor
  · rintro ⟨i, hi, hp⟩
    rw [List.mem_range] at hi
    simp only [Bool.and_eq_true, beq_iff_eq, decide_eq_true_eq] at hp
    obtain ⟨⟨⟨⟨hdot, h1i⟩, hdom⟩, halpha⟩, hlen⟩ := hp
    have hgd : t.getD i ' ' = t[i] := by
      rw [List.getD_eq_getElem?_getD, List.getElem?_eq_getElem hi]
      rfl
    have hti : t[i] = '.' := by rw [← hgd]; exact hdot
    have hsplit : t = t.take i ++ ('.' :: t.drop (i + 1)) := by
      conv_lhs => rw [← List.take_append_drop i t]
      rw [List.drop_eq_getElem_cons hi, hti]
    have hlen_take : (t.take i).length = i := by
      rw [List.length_take]
      omega
    refine ⟨t.take i, t.drop (i + 1), hsplit, ?_, hdom, ?_, halpha⟩
    · intro hnil
      rw [hnil] at hlen_take
      simp at hlen_take
      omega
    · rw [List.length_drop]
      exact hlen
  · rintro ⟨m, f, heq, hm, hdom, hflen, halpha⟩
    subst heq
    refine ⟨m.length, ?_, ?_⟩
    · rw [List.mem_range]
      simp [List.length_append]
    · simp only [Bool.and_eq_true, beq_iff_eq, decide_eq_true_eq]
      refine ⟨⟨⟨⟨?_, ?_⟩, ?_⟩, ?_⟩, ?_⟩
      · exact getD_append_cons m '.' f ' '
      · cases m with
        | nil => exact absurd rfl hm
        | cons y ys => simp
      · rw [List.take_left]
        exact hdom
      · have hdrop : (m ++ '.' :: f).drop (m.length + 1) = f := by
          have hre : m ++ '.' :: f = (m ++ ['.']) ++ f := by simp
          rw [hre, List.drop_left' (by simp)]
        rw [hdrop]
        exact halpha
      · simp only [List.length_append, List.length_cons]
        omega

/-- The structural language of the whole pattern: a nonempty run of
local-part characters, an at-sign, then the domain language. -/
theorem matchesEmailPattern_iff (cs : List Char) :
    matchesEmailPattern cs = true ↔
      ∃ l rest : List Char, cs = l ++ ('@' :: rest) ∧ l ≠ [] ∧
        l.all isLocalChar = true ∧ matchDomainTail rest = true := by
  unfold matchesEmailPattern
  rw [List.any_eq_true]
  constructor
  · rintro ⟨j, hj, hp⟩
    rw [List.mem_range] at hj
    simp only [Bool.and_eq_true, beq_iff_eq, decide_eq_true_eq] at hp
    obtain ⟨⟨⟨hat, h1j⟩, hloc⟩, hdt⟩ := hp
    have hgd : cs.getD j ' ' = cs[j] := by
      rw [List.getD_eq_getElem?_getD, List.getElem?_eq_getElem hj]
      rfl
    have htj : cs[j] = '@' := by rw [← hgd]; exact hat
    have hsplit : cs = cs.take j ++ ('@' :: cs.drop (j + 1)) := by
      conv_lhs => rw [← List.take_append_drop j cs]
      rw [List.drop_eq_getElem_cons hj, htj]
    have hlen_take : (cs.take j).length = j := by
      rw [List.length_take]
      omega
    refine ⟨cs.take j, cs.drop (j + 1), hsplit, ?_, hloc, hdt⟩
    intro hnil
    rw [hnil] at hlen_take
    simp at hlen_take
    omega
  · rintro ⟨l, rest, heq, hl, hloc, hdt⟩
    subst heq
    refine ⟨l.length, ?_, ?_⟩
    · rw [List.mem_range]
      simp [List.length_append]
    · simp only [Bool.and_eq_true, beq_iff_eq, decide_eq_true_eq]
      refine ⟨⟨⟨?_, ?_⟩, ?_⟩, ?_⟩
      · exact getD_append_cons l '@' rest ' '
      · cases l with
        | nil => exact absurd rfl hl
        | cons y ys => simp
      · rw [List.take_left]
        exact hloc
      · have hdrop : (l ++ '@' :: rest).drop (l.length + 1) = rest := by
          have hre : l ++ '@' :: rest = (l ++ ['@']) ++ rest := by simp
          rw [hre, List.drop_left' (by simp)]
        rw [hdrop]
        exact hdt

/-- The structural form the amended syntax claim describes: local part,
at-sign, a nonempty domain middle that may itself contain dots and
hyphens anywhere, a final dot, and a final segment of two or more
letters. -/
def SpecShape (cs : List Char) : Prop :=
  ∃ l m f : List Char,
    cs = l ++ ('@' :: (m ++ ('.' :: f))) ∧ l ≠ [] ∧ l.all isLocalChar = true ∧
      m ≠ [] ∧ m.all isDomainChar = true ∧ 2 ≤ f.length ∧ f.all Char.isAlpha = true

/-! ### Claim theorems -/

/-- C4: for every result verify_email returns, the status field is
exactly the pure function of the four booleans (risky iff all four are
true, valid iff the first three are true and catch_all is false,
invalid otherwise), and every field after a short-circuit point keeps
its default false value. -/
theorem verify_status_pure_function (denv : DnsEnv) (net : SmtpNet) (pick : Nat → Fin 36)
    (email : String) (r : VerificationResult)
    (h : verify_email denv net pick email = .ok r) :
    r.status = statusOf r.syntaxValid r.mx r.smtp_accepts r.catch_all ∧
    (r.syntaxValid = false → r.mx = false ∧ r.smtp_accepts = false ∧ r.catch_all = false) ∧
    (r.mx = false → r.smtp_accepts = false ∧ r.catch_all = false) ∧
    (r.smtp_accepts = false → r.catch_all = false) := by
  rcases verify_email_ok_shape denv net pick email r h with h1 | h1 | h1 | ⟨c, h1⟩ <;>
    subst h1
  · exact ⟨rfl, by simp, by simp, by simp⟩
  · exact ⟨rfl, by simp, by simp, by simp⟩
  · exact ⟨rfl, by simp, by simp, by simp⟩
  · exact ⟨by cases c <;> rfl, by simp, by simp, by simp⟩

/-- C4 witness at a concrete run: bad DNS gives the all-false invalid
result, whose status agrees with the status table. -/
theorem verify_status_pure_function_witness :
    (⟨"a@example.com", true, false, false, false, "invalid"⟩ : VerificationResult).status =
      statusOf true false false false :=
  (verify_status_pure_function ⟨.error .nxdomain, .error .nxdomain⟩ (fun _ _ _ => {})
    (fun _ => 0) "a@example.com" _ (by decide)).1

/-- C8: check_catch_all returns false on an empty host list without any
probe; otherwise it probes only the first host with the synthetic
mailbox, returning exactly that probe's accepted flag; and the synthetic
address is a twelve-character lowercase-alphanumeric local part at the
given domain. -/
theorem check_catch_all_spec :
    (∀ (net : SmtpNet) (pick : Nat → Fin 36) (dom : String),
        check_catch_all net pick dom [] = false) ∧
    (∀ (net : SmtpNet) (pick : Nat → Fin 36) (dom h : String) (rest : List String),
        check_catch_all net pick dom (h :: rest) =
          (smtp_handshake net h (generate_random_email pick dom) SMTP_TIMEOUT).1) ∧
    (∀ (pick : Nat → Fin 36) (dom : String),
        ∃ l : List Char,
          (generate_random_email pick dom).toList = l ++ ('@' :: dom.toList) ∧
          l.length = 12 ∧ l.all (fun c => c.isLower || c.isDigit) = true) := by
  refine ⟨fun _ _ _ => rfl, fun _ _ _ _ _ => rfl, fun pick dom => ?_⟩
  refine ⟨(List.range 12).map fun i => catchAllChars.getD (pick i).val 'a', ?_, by simp, ?_⟩
  · simp [generate_random_email, String.toList]
  · rw [List.all_eq_true]
    intro c hc
    rw [List.mem_map] at hc
    obtain ⟨i, _, hci⟩ := hc
    have hall : ∀ j : Fin 36, ((catchAllChars.getD j.val 'a').isLower ||
        (catchAllChars.getD j.val 'a').isDigit) = true := by decide
    rw [← hci]
    exact hall (pick i)

/-- C9: any input the syntax validator rejects makes verify_email
return the all-false invalid result for every resolver, prober and
random source, so no network behaviour can influence the result. -/
theorem verify_rejects_bad_syntax_without_network (denv : DnsEnv) (net : SmtpNet)
    (pick : Nat → Fin 36) (email : String)
    (h : validate_email_syntax email = false) :
    verify_email denv net pick email = .ok ⟨email, false, false, false, false, "invalid"⟩ := by
  simp only [verify_email, initResult, h]
  rfl

/-- C9 witness: a concrete rejected string gives the all-false invalid
result under an arbitrary concrete environment. -/
theorem verify_rejects_bad_syntax_without_network_witness :
    validate_email_syntax "plainaddress" = false ∧
    verify_email ⟨.ok [("m", 1)], .ok ()⟩ (fun _ _ _ => {}) (fun _ => 0) "plainaddress" =
      .ok ⟨"plainaddress", false, false, false, false, "invalid"⟩ :=
  ⟨by decide, verify_rejects_bad_syntax_without_network _ _ _ _ (by decide)⟩

/-- C6: with valid syntax and a nonempty resolved host list,
verify_email consults only the first three hosts in resolved order: if
all of them fail the result is the invalid record with smtp_accepts
false whatever hosts lie beyond the third, and the loop stops at the
first accepting host, the hosts after it being arbitrary. -/
theorem verify_probes_first_three_hosts (denv : DnsEnv) (net : SmtpNet)
    (pick : Nat → Fin 36) (email dom : String) (b : Bool) (hosts : List String)
    (hv : validate_email_syntax email = true)
    (hd : (splitAtSign email).get? 1 = some dom)
    (hm : check_dns_and_mx denv dom = .ok (b, hosts))
    (hne : hosts ≠ []) :
    ((∀ h ∈ hosts.take 3, (smtp_handshake net h email SMTP_TIMEOUT).1 = false) →
       verify_email denv net pick email =
         .ok ⟨email, true, true, false, false, "invalid"⟩) ∧
    (∀ pre hAcc post, hosts.take 3 = pre ++ hAcc :: post →
       (∀ h ∈ pre, (smtp_handshake net h email SMTP_TIMEOUT).1 = false) →
       (smtp_handshake net hAcc email SMTP_TIMEOUT).1 = true →
       verify_email denv net pick email =
         .ok ⟨email, true, true, true, check_catch_all net pick dom hosts,
              if check_catch_all net pick dom hosts then "risky" else "valid"⟩) := by
  have hpath := verify_email_probe_path denv net pick email dom b hosts hv hd hm hne
  constructor
  · intro hall
    have hfail := probeLoop_all_fail net email (hosts.take 3)
      (false, "No MX hosts available") rfl hall
    rw [hpath, if_neg (by simp [hfail])]
  · intro pre hAcc post hsplit hpre hacc
    rw [hpath, hsplit, probeLoop_first_accept net email pre hAcc post _ hpre hacc,
      if_pos hacc]

/-- C6 witness: with one resolving host that rejects every handshake the
result is invalid, and with a first host that accepts, the result is the
accepted record, here risky because the catch-all probe also accepts. -/
theorem verify_probes_first_three_hosts_witness :
    verify_email ⟨.ok [("m1.b.co", 10)], .ok ()⟩ (fun _ _ _ => { connect := some (.timeout "timed out") })
      (fun _ => 0) "a@b.co" = .ok ⟨"a@b.co", true, true, false, false, "invalid"⟩ ∧
    verify_email ⟨.ok [("m1.b.co", 10)], .ok ()⟩ (fun _ _ _ => {}) (fun _ => 0) "a@b.co" =
      .ok ⟨"a@b.co", true, true, true, true, "risky"⟩ := by
  constructor
  · exact (verify_probes_first_three_hosts ⟨.ok [("m1.b.co", 10)], .ok ()⟩
      (fun _ _ _ => { connect := some (.timeout "timed out") }) (fun _ => 0)
      "a@b.co" "b.co" true ["m1.b.co"] (by decide) (by decide) (by decide)
      (by decide)).1 (by decide)
  · have h2 := (verify_probes_first_three_hosts ⟨.ok [("m1.b.co", 10)], .ok ()⟩
      (fun _ _ _ => {}) (fun _ => 0) "a@b.co" "b.co" true ["m1.b.co"] (by decide)
      (by decide) (by decide) (by decide)).2 [] "m1.b.co" [] (by decide)
      (by simp) (by decide)
    exact h2.trans (by decide)

/-- C7: when the MX query succeeds, check_dns_and_mx returns hasMx true
and the hostnames of the records sorted by preference with a stable
sort: the sorted sequence is a permutation of the records (duplicates
preserved), pairwise ascending in preference, and every equal-preference
group keeps its original record order. -/
theorem mx_sorted_stable_by_preference (env : DnsEnv) (dom : String)
    (records : List (String × Nat)) (h : env.mx = .ok records) :
    check_dns_and_mx env dom = .ok (true, (sortByPreference records).map Prod.fst) ∧
    (sortByPreference records).Perm records ∧
    (sortByPreference records).Pairwise prefLe ∧
    ∀ p, (sortByPreference records).filter (fun x => x.2 == p) =
        records.filter (fun x => x.2 == p) := by
  refine ⟨?_, ?_, ?_, ?_⟩
  · unfold check_dns_and_mx
    rw [h]
  · exact List.perm_insertionSort prefLe records
  · exact List.sorted_insertionSort prefLe records
  · intro p
    have hpair : (records.filter (fun x => x.2 == p)).Pairwise prefLe := by
      rw [List.pairwise_iff_forall_sublist]
      intro a b hab
      have ha : a ∈ records.filter (fun x => x.2 == p) := hab.subset (by simp)
      have hb : b ∈ records.filter (fun x => x.2 == p) := hab.subset (by simp)
      have ha2 := (List.mem_filter.mp ha).2
      have hb2 := (List.mem_filter.mp hb).2
      simp only [beq_iff_eq] at ha2 hb2
      show a.2 ≤ b.2
      rw [ha2, hb2]
    have hsub : (records.filter (fun x => x.2 == p)).Sublist (sortByPreference records) :=
      List.sublist_insertionSort hpair (List.filter_sublist records)
    have hsub2 : (records.filter (fun x => x.2 == p)).Sublist
        ((sortByPreference records).filter (fun x => x.2 == p)) := by
      have h2 := hsub.filter (fun x => x.2 == p)
      rwa [List.filter_eq_self.mpr (fun a ha => (List.mem_filter.mp ha).2)] at h2
    have hperm : ((sortByPreference records).filter (fun x => x.2 == p)).Perm
        (records.filter (fun x => x.2 == p)) :=
      (List.perm_insertionSort prefLe records).filter _
    exact (hsub2.eq_of_length hperm.length_eq.symm).symm

/-- C7 witness: preferences 20, 10, 30 come back as the 10, 20, 30
hosts, and an equal-preference pair keeps its record order. -/
theorem mx_sorted_stable_by_preference_witness :
    check_dns_and_mx ⟨.ok [("h20", 20), ("h10", 10), ("h30", 30)], .ok ()⟩ "example.com" =
      .ok (true, ["h10", "h20", "h30"]) ∧
    check_dns_and_mx ⟨.ok [("first", 5), ("second", 5)], .ok ()⟩ "example.com" =
      .ok (true, ["first", "second"]) :=
  ⟨((mx_sorted_stable_by_preference ⟨.ok [("h20", 20), ("h10", 10), ("h30", 30)], .ok ()⟩
      "example.com" _ rfl).1).trans (by decide),
   ((mx_sorted_stable_by_preference ⟨.ok [("first", 5), ("second", 5)], .ok ()⟩
      "example.com" _ rfl).1).trans (by decide)⟩

/-- The port-level handler clauses never yield the accepted outcome. -/
theorem dispatchExn_ne_accepted (port : Nat) (e : Exn) :
    dispatchExn port e ≠ .accepted := by
  cases hb : (portHandler port e).2 <;> simp [dispatchExn, hb]

/-- C3 counterexample environment: port 25 completes the handshake and
the recipient step answers 250, but the unguarded QUIT raises (server
closed the connection), as does the QUIT retried inside the RCPT
handler; ports 587 and 465 time out. -/
def netQuitFail : SmtpNet := fun _ _ p =>
  if p == 25 then
    { rcpt := .code 250 "OK",
      quit1 := some (.serverDisconnected "Connection unexpectedly closed"),
      quit2 := some (.serverDisconnected "please run connect() first") }
  else { connect := some (.timeout "timed out") }

/-- C3 counterexample: on port 25 every step up to the recipient answer
succeeds and the code is the accepting 250, yet because the session
termination raises, smtp_handshake does not return accepted: the
outcome is lost and the remaining ports' failures decide the result. -/
theorem accept_lost_on_quit_failure :
    (netQuitFail "mx.example.com" "user@example.com" 25).connect = none ∧
    (netQuitFail "mx.example.com" "user@example.com" 25).mailExn = none ∧
    (netQuitFail "mx.example.com" "user@example.com" 25).rcpt = .code 250 "OK" ∧
    smtp_handshake netQuitFail "mx.example.com" "user@example.com" 10 =
      (false, "Connection timeout on port 465") := by decide

/-- C3 amended: when the recipient step answers an accepting code the
outcome is Accepted only if the session termination also succeeds: with
a clean QUIT the port attempt returns accepted (and smtp_handshake
returns (true, Accepted) as soon as a port attempt accepts), but any
port attempt that returns accepted necessarily had a non-raising QUIT,
so a termination failure always discards the accepting outcome and the
loop moves on. -/
theorem accept_requires_clean_quit :
    (∀ (env : PortEnv) (port c : Nat) (m : String),
       env.connect = none → (env.ehloOk || env.heloOk) = true → env.mailExn = none →
       env.rcpt = .code c m → (c == 250 || c == 251 || c == 252) = true →
       env.quit1 = none → runPort env port = .accepted) ∧
    (∀ (env : PortEnv) (port : Nat), runPort env port = .accepted → env.quit1 = none) ∧
    (∀ (net : SmtpNet) (hst eml : String) (t : Nat),
       runPort (net hst eml 25) 25 = .accepted →
       smtp_handshake net hst eml t = (true, "Accepted")) := by
  refine ⟨?_, ?_, ?_⟩
  · intro env port c m hc hg hm hr hcode hq
    unfold runPort
    rw [hc, hg, hm, hr]
    simp [hcode, hq]
  · intro env port h
    unfold runPort at h
    split at h
    · exact absurd h (dispatchExn_ne_accepted _ _)
    · split at h
      · split at h
        · split at h
          · simp at h
          · exact absurd h (dispatchExn_ne_accepted _ _)
        · split at h
          · split at h
            · split at h
              · assumption
              · split at h
                · simp at h
                · exact absurd h (dispatchExn_ne_accepted _ _)
            · split at h
              · simp at h
              · split at h
                · simp at h
                · exact absurd h (dispatchExn_ne_accepted _ _)
          · split at h
            · simp at h
            · exact absurd h (dispatchExn_ne_accepted _ _)
          · split at h
            · simp at h
            · exact absurd h (dispatchExn_ne_accepted _ _)
      · split at h
        · simp at h
        · exact absurd h (dispatchExn_ne_accepted _ _)
  · intro net hst eml t h
    simp only [smtp_handshake, portsToTry, handshakeLoop, h]

/-- C3 witness: a default-behaved server accepting the recipient with a
clean QUIT makes the port attempt accepted, an accepted attempt has a
clean QUIT, and the handshake reports (true, Accepted). -/
theorem accept_requires_clean_quit_witness :
    runPort { rcpt := .code 250 "OK" } 25 = .accepted ∧
    ({ rcpt := .code 250 "OK" } : PortEnv).quit1 = none ∧
    smtp_handshake (fun _ _ _ => { rcpt := .code 250 "OK" }) "mx.example.com"
      "u@example.com" 10 = (true, "Accepted") :=
  ⟨accept_requires_clean_quit.1 { rcpt := .code 250 "OK" } 25 250 "OK" rfl rfl rfl rfl rfl rfl,
   accept_requires_clean_quit.2.1 { rcpt := .code 250 "OK" } 25 (by decide),
   accept_requires_clean_quit.2.2 (fun _ _ _ => { rcpt := .code 250 "OK" })
     "mx.example.com" "u@example.com" 10 (by decide)⟩

/-- C5 counterexample environment: port 25 reaches the recipient step
and gets the accepting 251, but both QUIT attempts raise; the other two
ports are refused connections. -/
def netQuitFailPorts : SmtpNet := fun _ _ p =>
  if p == 25 then
    { rcpt := .code 251 "Forwarded",
      quit1 := some (.serverDisconnected "Connection unexpectedly closed"),
      quit2 := some (.timeout "timed out") }
  else { connect := some (.connErr "[Errno 111] Connection refused") }

/-- C5 counterexample: a recipient-step code in the accepting set does
not yield the Accepted outcome when the following QUIT raises — further
ports are tried and the probe ends rejected, against the claim that an
accepting code on any port immediately determines the outcome. -/
theorem accepting_code_not_returned_on_quit_failure :
    (netQuitFailPorts "mx.example.com" "user@example.com" 25).rcpt = .code 251 "Forwarded" ∧
    smtp_handshake netQuitFailPorts "mx.example.com" "user@example.com" 10 =
      (false, "Connection error on port 465: [Errno 111] Connection refused") := by decide

/-- C5 amended: the candidate ports are tried in the fixed order 25,
587, 465; a recipient code in the accepting set followed by a clean QUIT
returns Accepted immediately; any other code followed by a clean QUIT
records the code and server text as the rejection reason and continues;
and a failed earlier port never short-circuits later ports: whatever
happened on port 25 short of acceptance, an accepting port 587 attempt
makes the whole probe Accepted. -/
theorem port_order_and_fallback :
    portsToTry = [25, 587, 465] ∧
    (∀ (env : PortEnv) (port c : Nat) (m : String),
       env.connect = none → (env.ehloOk || env.heloOk) = true → env.mailExn = none →
       env.rcpt = .code c m → (c == 250 || c == 251 || c == 252) = false →
       env.quit1 = none →
       runPort env port = .cont (some ("Rejected: " ++ toString c ++ " " ++ m))) ∧
    (∀ (net : SmtpNet) (hst eml : String) (t : Nat) (u : Option String),
       runPort (net hst eml 25) 25 = .cont u →
       runPort (net hst eml 587) 587 = .accepted →
       smtp_handshake net hst eml t = (true, "Accepted")) := by
  refine ⟨rfl, ?_, ?_⟩
  · intro env port c m hc hg hm hr hcode hq
    unfold runPort
    rw [hc, hg, hm, hr]
    simp [hcode, hq]
  · intro net hst eml t u h25 h587
    simp only [smtp_handshake, portsToTry, handshakeLoop, h25, h587]

/-- C5 witness: the port list, a concrete 550 rejection recording its
reason, and the port-25-refused-then-587-accepts fallback ending
Accepted. -/
theorem port_order_and_fallback_witness :
    portsToTry = [25, 587, 465] ∧
    runPort { rcpt := .code 550 "User unknown" } 25 =
      .cont (some "Rejected: 550 User unknown") ∧
    smtp_handshake
      (fun _ _ p => if p == 25 then { connect := some (.connErr "[Errno 111] Connection refused") } else {})
      "mx.example.com" "u@example.com" 10 = (true, "Accepted") :=
  ⟨port_order_and_fallback.1,
   port_order_and_fallback.2.1 { rcpt := .code 550 "User unknown" } 25 550 "User unknown"
     rfl rfl rfl rfl rfl rfl,
   port_order_and_fallback.2.2
     (fun _ _ p => if p == 25 then { connect := some (.connErr "[Errno 111] Connection refused") } else {})
     "mx.example.com" "u@example.com" 10
     (some "Port 25 blocked (AWS EC2 blocks outbound port 25 by default)")
     (by decide) (by decide)⟩

/-- C2 counterexample: the validator accepts a string with an empty
domain label between two consecutive dots, which the claimed grammar of
nonempty dot-separated labels rejects. -/
theorem validate_accepts_empty_label :
    validate_email_syntax "a@b..co" = true ∧ claimGrammar "a@b..co" = false := by decide

/-- C2 amended: the validator accepts exactly the strings that, after
ignoring one trailing newline, consist of a nonempty local part over
the stated class, an at-sign, a nonempty middle over letters, digits,
dots and hyphens (so empty labels between consecutive dots and hyphens
anywhere are accepted), a dot, and a final segment of two or more
letters; still pure and total. -/
theorem validate_email_syntax_characterization (email : String) :
    validate_email_syntax email = true ↔ SpecShape (stripTrailingNewline email.toList) := by
  unfold validate_email_syntax SpecShape
  split
  · rename_i hemp
    have hemail : email = "" := eq_of_beq hemp
    subst hemail
    simp only [Bool.false_eq_true, false_iff]
    rintro ⟨l, m, f, heq, hl, hrest⟩
    simp only [stripTrailingNewline, String.toList] at heq
    simp at heq
  · rw [matchesEmailPattern_iff]
    constructor
    · rintro ⟨l, rest, hcs, hl, hall, hdt⟩
      rw [matchDomainTail_iff] at hdt
      obtain ⟨m, f, hrest, hm, hdom, hflen, halpha⟩ := hdt
      exact ⟨l, m, f, by rw [hcs, hrest], hl, hall, hm, hdom, hflen, halpha⟩
    · rintro ⟨l, m, f, heq, hl, hall, hm, hdom, hflen, halpha⟩
      exact ⟨l, m ++ ('.' :: f), heq, hl, hall,
        (matchDomainTail_iff _).mpr ⟨m, f, rfl, hm, hdom, hflen, halpha⟩⟩

/-- The MX-query failures that send check_dns_and_mx into the fallback
A-record query. -/
def mxTriggersFallback (env : DnsEnv) : Prop :=
  env.mx = .error .noAnswer ∨ env.mx = .error .nxdomain ∨ env.mx = .error .noNameservers

/-- C1 counterexample: the MX query fails with no-answer and the
fallback A query times out; the timeout escapes check_dns_and_mx and
hence verify_email ends in an error instead of a (false, empty) result,
refuting that every resolver failure is converted at this boundary. -/
theorem dns_fallback_timeout_escapes :
    check_dns_and_mx ⟨.error .noAnswer, .error .timeout⟩ "example.com" = .error .timeout ∧
    verify_email ⟨.error .noAnswer, .error .timeout⟩ (fun _ _ _ => {}) (fun _ => 0)
      "a@example.com" = .error .timeout := by decide

/-- C1 amended: check_dns_and_mx raises exactly when the MX query fails
with one of the fallback-triggering errors and the fallback A query then
fails with anything other than NXDOMAIN or no-nameservers (timeout,
no-answer or any other error); every other resolver behaviour is
converted to a normal (hasMx, hosts) result, and verify_email raises
only by propagating such a check_dns_and_mx error on the extracted
domain. -/
theorem check_dns_error_characterization (env : DnsEnv) (dom : String) :
    (∀ e, check_dns_and_mx env dom = .error e ↔
       (mxTriggersFallback env ∧ env.a = .error e ∧ e ≠ .nxdomain ∧ e ≠ .noNameservers)) ∧
    (∀ (net : SmtpNet) (pick : Nat → Fin 36) (email : String) (e : DnsErr),
       verify_email env net pick email = .error e →
       ∃ dom2, (splitAtSign email).get? 1 = some dom2 ∧
         check_dns_and_mx env dom2 = .error e) := by
  constructor
  · intro e
    obtain ⟨mx, a⟩ := env
    cases mx with
    | ok recs => simp [check_dns_and_mx, mxTriggersFallback]
    | error em =>
      cases a with
      | ok u => cases em <;> simp [check_dns_and_mx, mxTriggersFallback]
      | error ea =>
        cases em <;> cases ea <;> cases e <;>
          simp [check_dns_and_mx, mxTriggersFallback]
  · intro net pick email e h
    simp only [verify_email, initResult] at h
    split at h
    · split at h
      · simp at h
      · rename_i domain hdom
        split at h
        · rename_i e2 herr
          simp only [Except.error.injEq] at h
          exact ⟨domain, hdom, h ▸ herr⟩
        · split at h
          · simp at h
          · split at h <;> simp at h
    · simp at h

/-- C1 witness: at the concrete environment whose MX query returns
no-answer and whose A query times out, both parts of the
characterization apply: the boundary raises the timeout and verify_email
propagates it from the extracted domain. -/
theorem check_dns_error_characterization_witness :
    check_dns_and_mx ⟨.error .noAnswer, .error .timeout⟩ "b.co" = .error .timeout ∧
    (∃ dom2, (splitAtSign "u@b.co").get? 1 = some dom2 ∧
       check_dns_and_mx ⟨.error .noAnswer, .error .timeout⟩ dom2 = .error .timeout) :=
  ⟨((check_dns_error_characterization ⟨.error .noAnswer, .error .timeout⟩ "b.co").1
      .timeout).mpr ⟨Or.inl rfl, rfl, by decide, by decide⟩,
   (check_dns_error_characterization ⟨.error .noAnswer, .error .timeout⟩ "b.co").2
     (fun _ _ _ => {}) (fun _ => 0) "u@b.co" .timeout (by decide)⟩

/-- C10: the email field of every result verify_email returns equals
the input string unchanged, on every pipeline path. -/
theorem verify_email_echoes_input (denv : DnsEnv) (net : SmtpNet) (pick : Nat → Fin 36)
    (email : String) (r : VerificationResult)
    (h : verify_email denv net pick email = .ok r) : r.email = email := by
  rcases verify_email_ok_shape denv net pick email r h with h1 | h1 | h1 | ⟨c, h1⟩ <;>
    subst h1 <;> rfl

/-- C10 witness: a concrete accepted run echoes the input address. -/
theorem verify_email_echoes_input_witness :
    (⟨"a@b.co", true, true, true, true, "risky"⟩ : VerificationResult).email = "a@b.co" :=
  verify_email_echoes_input ⟨.ok [("m", 1)], .ok ()⟩ (fun _ _ _ => {}) (fun _ => 0)
    "a@b.co" _ (by decide)

end EmailVerifier
